import Mathlib

/-!
Verification of the Conway Game of Life simulator
(src/Conway-Game-Of-Life/Conway-Game-Of-Life.cpp).

The C++ program works on two fixed-size boards `int currentGen[ROW][COL]`
and `int nextGen[ROW][COL]` with `ROW = 5`, `COL = 4`.  We embed a board as
a total function `Fin ROW → Fin COL → ℤ` (the array dimensions are part of
the C++ type, so they are part of the Lean type as well; cell values are C++
`int`, embedded as `ℤ`).  The imperative loops of `main`,
`makeCurrentGenSameAsNextGen` and friends are embedded as folds over the
row-major list of cell positions, updating explicit grid-pair states.
-/

/-- `const int ROW = 5;` -/
abbrev ROW : ℕ := 5

/-- `const int COL = 4;` -/
abbrev COL : ℕ := 4

/-- A board `int board[ROW][COL]`: a total map from in-range coordinates to
`int` cell values. -/
def Grid : Type := Fin ROW → Fin COL → ℤ

/-- `int rowCell[] = { -1, -1, -1,  0,  1, 0, 1, 1 };` -/
def rowCell : List ℤ := [-1, -1, -1, 0, 1, 0, 1, 1]

/-- `int colCell[] = { -1,  1,  0, -1, -1, 1, 0, 1 };` -/
def colCell : List ℤ := [-1, 1, 0, -1, -1, 1, 0, 1]

/-- The eight neighbor offsets in the order the loop of `countNeighbors`
visits them: `(rowCell[i], colCell[i])` for `i = 0..7`. -/
def neighborOffsets : List (ℤ × ℤ) := rowCell.zip colCell

/-- `bool isSafe(int matrix[ROW][COL], int x, int y)`: bounds check
`(x >= 0) && (x < ROW) && (y >= 0) && (y < COL)` (the matrix argument is
unused in the source). -/
def isSafe (x y : ℤ) : Bool :=
  decide (0 ≤ x) && decide (x < (ROW : ℤ)) && decide (0 ≤ y) && decide (y < (COL : ℤ))

/-- Reading `board[x][y]` at `int` coordinates that have passed the
`isSafe` bounds check; out of range the value is irrelevant (the source
never reads there) and we return 0. -/
def cellAt (board : Grid) (x y : ℤ) : ℤ :=
  if h : 0 ≤ x ∧ x < (ROW : ℤ) ∧ 0 ≤ y ∧ y < (COL : ℤ) then
    board ⟨x.toNat, by omega⟩ ⟨y.toNat, by omega⟩
  else 0

/-- `int countNeighbors(int board[ROW][COL], int r, int c)`: for each
`i = 0..7` set `x = r + rowCell[i]`, `y = c + colCell[i]` and increment the
counter when `isSafe(board, x, y) && board[x][y] == 1`. -/
def countNeighbors (board : Grid) (r c : ℤ) : ℕ :=
  neighborOffsets.countP fun d =>
    isSafe (r + d.1) (c + d.2) && (cellAt board (r + d.1) (c + d.2) == 1)

/-- The net value the loop body of `main` (lines 64–84) stores into
`nextGen[i][j]`: first `nextGen[i][j] = 0`, then the three sequential `if`
statements for a live cell (`currentGen[i][j] == 1`), or the reproduction
`if` for a dead cell. -/
def nextGenCell (currentGen : Grid) (i : Fin ROW) (j : Fin COL) : ℤ :=
  let next0 : ℤ := 0
  let totalNeighbors := countNeighbors currentGen ((i : ℕ) : ℤ) ((j : ℕ) : ℤ)
  if currentGen i j = 1 then
    let next1 := if totalNeighbors < 2 then 0 else next0
    let next2 := if totalNeighbors = 2 ∨ totalNeighbors = 3 then 1 else next1
    let next3 := if totalNeighbors > 3 then 0 else next2
    next3
  else
    if totalNeighbors = 3 then 1 else next0

/-- The next generation as a whole grid: cell `(i,j)` holds what the loop of
`main` stores into `nextGen[i][j]`. -/
def computeNextGeneration (currentGen : Grid) : Grid :=
  fun i j => nextGenCell currentGen i j

/-- The Game of Life transition rule exactly as the specification states it,
as a function of the cell's aliveness and its live-neighbor count `n`:
alive with `n < 2` dies (underpopulation), alive with `n ∈ {2,3}` survives,
alive with `n > 3` dies (overpopulation), dead with `n = 3` becomes alive
(reproduction), dead otherwise stays dead.  Used only to compare against the
code-derived `computeNextGeneration`. -/
def lifeRuleSpec (alive : Bool) (n : ℕ) : Bool :=
  if alive then
    if n < 2 then false
    else if n = 2 ∨ n = 3 then true
    else false
  else
    if n = 3 then true else false

/-- The eight neighbor offsets as the specification lists them. -/
def specNeighborOffsets : List (ℤ × ℤ) :=
  [(-1, -1), (-1, 0), (-1, 1), (0, -1), (0, 1), (1, -1), (1, 0), (1, 1)]

/-- C1: For every grid G and every in-bounds cell (r,c), the next-generation
state computed from G follows the Game of Life rule with
n = countNeighbors(G,r,c): an Alive cell with n < 2 becomes Dead, an Alive
cell with n equal to 2 or 3 stays Alive, an Alive cell with n > 3 becomes
Dead, a Dead cell with n == 3 becomes Alive, and a Dead cell with n != 3
stays Dead. -/
theorem computeNextGeneration_follows_life_rule (G : Grid) (r : Fin ROW) (c : Fin COL) :
    computeNextGeneration G r c =
      (if lifeRuleSpec (G r c == 1) (countNeighbors G ((r : ℕ) : ℤ) ((c : ℕ) : ℤ))
        then 1 else 0) := by
  unfold computeNextGeneration nextGenCell lifeRuleSpec
  by_cases h : G r c = 1 <;> simp only [h] <;> simp <;> split_ifs <;> omega

/-- C2: countNeighbors examines exactly the 8 offset positions the spec
lists, skips out-of-bounds offsets via the `isSafe` guard (so it never reads
a cell outside `[0,ROW) × [0,COL)` — by construction a `Grid` has no cells
outside that range at all), and returns the count, at most 8, of in-bounds
Alive neighbors. -/
theorem countNeighbors_spec (board : Grid) (r c : ℤ) :
    countNeighbors board r c =
      (specNeighborOffsets.countP fun d =>
        isSafe (r + d.1) (c + d.2) && (cellAt board (r + d.1) (c + d.2) == 1)) ∧
    countNeighbors board r c ≤ 8 := by
  constructor
  · exact List.Perm.countP_eq _ (by decide)
  · calc countNeighbors board r c ≤ neighborOffsets.length := List.countP_le_length _
      _ = 8 := by decide

/-- `bool generationsAreIdentical(int board1[ROW][COL], int board2[ROW][COL], int r)`:
nested loops over rows `i < r` and columns `j < COL` that return `false` on
the first cell pair with `board1[i][j] != board2[i][j]`, else `true`.
The short-circuiting nested loops are embedded as the (short-circuiting)
`List.all` over the rows visited and the columns of each row. -/
def generationsAreIdentical (board1 board2 : Grid) (r : ℕ) : Bool :=
  ((List.finRange ROW).take r).all fun i =>
    (List.finRange COL).all fun j => board1 i j == board2 i j

/-- The grid-equality check as `main` invokes it:
`generationsAreIdentical(currentGen, nextGen, ROW)`. -/
def gridsEqual (board1 board2 : Grid) : Bool :=
  generationsAreIdentical board1 board2 ROW

lemma gridsEqual_eq_true_iff (board1 board2 : Grid) :
    gridsEqual board1 board2 = true ↔ ∀ i j, board1 i j = board2 i j := by
  have htake : (List.finRange ROW).take ROW = List.finRange ROW := by decide
  simp [gridsEqual, generationsAreIdentical, htake, List.all_eq_true, List.mem_finRange]

/-- C4: gridsEqual(A,B) returns true iff every corresponding cell pair has
equal state; in particular (the observable content of the short-circuit at
the first mismatching cell, which is structural in the `List.all` embedding)
any mismatching cell pair forces the result `false`. -/
theorem gridsEqual_iff_cells_eq (A B : Grid) :
    (gridsEqual A B = true ↔ ∀ i j, A i j = B i j) ∧
    (∀ i j, A i j ≠ B i j → gridsEqual A B = false) := by
  refine ⟨gridsEqual_eq_true_iff A B, fun i j hne => ?_⟩
  cases hb : gridsEqual A B
  · rfl
  · exact absurd ((gridsEqual_eq_true_iff A B).mp hb i j) hne

/-- Witness for C4 at concrete grids: the all-dead grid and the grid that is
alive exactly at the origin differ at (0,0), so gridsEqual returns false;
and gridsEqual of the all-dead grid with itself returns true. -/
theorem gridsEqual_iff_cells_eq_witness :
    gridsEqual (fun _ _ => 0) (fun i j => if i = 0 ∧ j = 0 then 1 else 0) = false ∧
    gridsEqual (fun _ _ => 0) (fun _ _ => 0) = true :=
  ⟨(gridsEqual_iff_cells_eq (fun _ _ => 0) (fun i j => if i = 0 ∧ j = 0 then 1 else 0)).2
      0 0 (by decide),
   (gridsEqual_iff_cells_eq (fun _ _ => 0) (fun _ _ => 0)).1.mpr (fun _ _ => rfl)⟩

/-- C7: gridsEqual is reflexive (gridsEqual(G,G) = true) and symmetric
(gridsEqual(A,B) = gridsEqual(B,A)). -/
theorem gridsEqual_refl_symm :
    (∀ G : Grid, gridsEqual G G = true) ∧
    (∀ A B : Grid, gridsEqual A B = gridsEqual B A) := by
  constructor
  · intro G
    exact (gridsEqual_eq_true_iff G G).mpr (fun _ _ => rfl)
  · intro A B
    by_cases h : ∀ i j, A i j = B i j
    · rw [(gridsEqual_eq_true_iff A B).mpr h,
        (gridsEqual_eq_true_iff B A).mpr (fun i j => (h i j).symm)]
    · have hA : gridsEqual A B = false := by
        cases h1 : gridsEqual A B
        · rfl
        · exact absurd ((gridsEqual_eq_true_iff A B).mp h1) h
      have hB : gridsEqual B A = false := by
        cases h1 : gridsEqual B A
        · rfl
        · exact absurd (fun i j => ((gridsEqual_eq_true_iff B A).mp h1 i j).symm) h
      rw [hA, hB]

/-- The all-dead grid (every cell 0). -/
def deadGrid : Grid := fun _ _ => 0

/-- A grid whose every cell is one of the two values 0 (Dead) and 1 (Alive). -/
def binaryGrid (G : Grid) : Prop := ∀ i j, G i j = 0 ∨ G i j = 1

/-- The random seeding loop of `main` (lines 46–50):
`currentGen[i][j] = rand() % 2`, with `rand()` drawn from an arbitrary
stream of nonnegative `int`s consumed in row-major call order. -/
def seedGrid (rand : ℕ → ℕ) : Grid :=
  fun i j => ((rand ((i : ℕ) * COL + (j : ℕ)) % 2 : ℕ) : ℤ)

lemma binaryGrid_computeNextGeneration (G : Grid) :
    binaryGrid (computeNextGeneration G) := by
  intro i j
  unfold computeNextGeneration nextGenCell
  dsimp only
  split_ifs <;> omega

/-- C5: every grid reachable in the simulation has two-valued cells: the
random seeding writes only 0 or 1 (`rand() % 2`), computeNextGeneration
writes only 0 or 1 into every cell of its output, and hence every iterate
of the step function from a seeded grid is two-valued. -/
theorem reachable_grids_are_binary :
    (∀ rand : ℕ → ℕ, binaryGrid (seedGrid rand)) ∧
    (∀ G : Grid, binaryGrid (computeNextGeneration G)) ∧
    (∀ (rand : ℕ → ℕ) (n : ℕ), binaryGrid (computeNextGeneration^[n] (seedGrid rand))) := by
  refine ⟨fun rand i j => ?_, binaryGrid_computeNextGeneration, fun rand n => ?_⟩
  · unfold seedGrid
    omega
  · cases n with
    | zero =>
        intro i j
        simp only [Function.iterate_zero, id_eq, seedGrid]
        omega
    | succ m =>
        rw [Function.iterate_succ_apply']
        exact binaryGrid_computeNextGeneration _

/-- C6: a stable (still-life) state stays stable: if computeNextGeneration(G)
equals G cell-for-cell, then so does computeNextGeneration applied twice. -/
theorem stable_grid_stays_stable (G : Grid)
    (h : ∀ i j, computeNextGeneration G i j = G i j) :
    ∀ i j, computeNextGeneration (computeNextGeneration G) i j = G i j := by
  have hG : computeNextGeneration G = G := funext fun i => funext fun j => h i j
  rw [hG, hG]
  intro i j
  rfl

/-- Witness for C6: the all-dead grid is a still life, and the theorem
applies to it. -/
theorem stable_grid_stays_stable_witness :
    computeNextGeneration (computeNextGeneration deadGrid) 0 0 = deadGrid 0 0 :=
  stable_grid_stays_stable deadGrid (by decide) 0 0

/-- The row-major order in which the nested `for` loops of `main` and of
`makeCurrentGenSameAsNextGen` visit the cells of the first `r` rows. -/
def cellOrderUpTo (r : ℕ) : List (Fin ROW × Fin COL) :=
  ((List.finRange ROW).take r).flatMap fun i =>
    (List.finRange COL).map fun j => (i, j)

/-- The row-major visiting order of the full board. -/
def cellOrder : List (Fin ROW × Fin COL) := cellOrderUpTo ROW

/-- Writing `v` into cell `(i,j)` of a board (`board[i][j] = v;`). -/
def setCell (g : Grid) (i : Fin ROW) (j : Fin COL) (v : ℤ) : Grid :=
  fun a b => if a = i ∧ b = j then v else g a b

/-- One iteration of the generation loop of `main` (lines 60–89) on the
state `(currentGen, nextGen)`: `currentGen` is only read, and
`nextGen[i][j]` receives the value the loop body computes for cell `(i,j)`
from `currentGen`. -/
def nextGenLoopBody (st : Grid × Grid) (p : Fin ROW × Fin COL) : Grid × Grid :=
  (st.1, setCell st.2 p.1 p.2 (nextGenCell st.1 p.1 p.2))

/-- The whole generation-computing double loop of `main`: fold the body over
all cells in row-major order, starting from the current board and whatever
contents the `nextGen` buffer holds. -/
def computeLoop (currentGen nextGen0 : Grid) : Grid × Grid :=
  cellOrder.foldl nextGenLoopBody (currentGen, nextGen0)

lemma nextGenLoop_fst (L : List (Fin ROW × Fin COL)) (st : Grid × Grid) :
    (L.foldl nextGenLoopBody st).1 = st.1 := by
  induction L generalizing st with
  | nil => rfl
  | cons q L ih => rw [List.foldl_cons, ih]; rfl

lemma nextGenLoop_snd_apply (L : List (Fin ROW × Fin COL)) (cur g : Grid)
    (p : Fin ROW × Fin COL) :
    (L.foldl nextGenLoopBody (cur, g)).2 p.1 p.2 =
      if p ∈ L then nextGenCell cur p.1 p.2 else g p.1 p.2 := by
  induction L generalizing g with
  | nil => simp
  | cons q L ih =>
      rw [List.foldl_cons,
        show nextGenLoopBody (cur, g) q =
          (cur, setCell g q.1 q.2 (nextGenCell cur q.1 q.2)) from rfl, ih]
      by_cases hpL : p ∈ L
      · simp [hpL, List.mem_cons]
      · by_cases hpq : p = q
        · subst hpq
          simp [hpL, setCell]
        · have hmem : ¬ (p ∈ q :: L) := by simp [List.mem_cons, hpq, hpL]
          rw [if_neg hpL, if_neg hmem]
          have hne : ¬(p.1 = q.1 ∧ p.2 = q.2) := fun hc => hpq (Prod.ext hc.1 hc.2)
          simp [setCell, hne]

lemma computeLoop_fst (currentGen nextGen0 : Grid) :
    (computeLoop currentGen nextGen0).1 = currentGen :=
  nextGenLoop_fst cellOrder (currentGen, nextGen0)

lemma mem_cellOrder (p : Fin ROW × Fin COL) : p ∈ cellOrder := by
  have : ∀ q : Fin ROW × Fin COL, q ∈ cellOrder := by decide
  exact this p

lemma computeLoop_snd (currentGen nextGen0 : Grid) :
    (computeLoop currentGen nextGen0).2 = computeNextGeneration currentGen := by
  funext i j
  have h := nextGenLoop_snd_apply cellOrder currentGen nextGen0 (i, j)
  rw [computeLoop, h, if_pos (mem_cellOrder (i, j))]
  rfl

/-- C8: the generation loop returns a new grid of the same dimensions
(dimensions are the fixed array type ROW × COL for both buffers) and leaves
the input grid unchanged: the `currentGen` component of the loop state is
never written, and the `nextGen` component ends up holding
computeNextGeneration of the input, whatever the buffer held before. -/
theorem computeLoop_no_mutation (currentGen nextGen0 : Grid) :
    (computeLoop currentGen nextGen0).1 = currentGen ∧
    (computeLoop currentGen nextGen0).2 = computeNextGeneration currentGen :=
  ⟨computeLoop_fst currentGen nextGen0, computeLoop_snd currentGen nextGen0⟩

/-- C9: computeNextGeneration is deterministic: equal input grids give equal
output grids (the output is a pure function of the input alone), and the
generation loop's result does not depend on the previous contents of the
`nextGen` buffer — there is no hidden input. -/
theorem computeNextGeneration_deterministic :
    (∀ G G' : Grid, (∀ i j, G i j = G' i j) →
      ∀ i j, computeNextGeneration G i j = computeNextGeneration G' i j) ∧
    (∀ currentGen nextGen0 nextGen1 : Grid,
      (computeLoop currentGen nextGen0).2 = (computeLoop currentGen nextGen1).2) := by
  constructor
  · intro G G' h i j
    rw [show G = G' from funext fun a => funext fun b => h a b]
  · intro currentGen nextGen0 nextGen1
    rw [computeLoop_snd, computeLoop_snd]

/-- Witness for C9 at a concrete input: two (syntactically distinct but
cell-for-cell equal) copies of the all-dead grid step to equal grids. -/
theorem computeNextGeneration_deterministic_witness :
    computeNextGeneration deadGrid 0 0 = computeNextGeneration (fun _ _ => 0) 0 0 :=
  computeNextGeneration_deterministic.1 deadGrid (fun _ _ => 0) (fun _ _ => rfl) 0 0

/-- One iteration of the loop body of `makeCurrentGenSameAsNextGen`
(lines 171–178): `board1[i][j] = board2[i][j]; board2[i][j] = 0;`. -/
def copyGenLoopBody (st : Grid × Grid) (p : Fin ROW × Fin COL) : Grid × Grid :=
  (setCell st.1 p.1 p.2 (st.2 p.1 p.2), setCell st.2 p.1 p.2 0)

/-- `void makeCurrentGenSameAsNextGen(int board1[][COL], int board2[][COL], int r)`:
copy `board2` on top of `board1` and clear `board2`, cell by cell over the
first `r` rows in row-major order.  The returned pair is the final contents
of `(board1, board2)`. -/
def makeCurrentGenSameAsNextGen (board1 board2 : Grid) (r : ℕ) : Grid × Grid :=
  (cellOrderUpTo r).foldl copyGenLoopBody (board1, board2)

lemma copyGenLoop_apply :
    ∀ (L : List (Fin ROW × Fin COL)), L.Nodup → ∀ (b1 b2 : Grid) (p : Fin ROW × Fin COL),
      ((L.foldl copyGenLoopBody (b1, b2)).1 p.1 p.2 =
        if p ∈ L then b2 p.1 p.2 else b1 p.1 p.2) ∧
      ((L.foldl copyGenLoopBody (b1, b2)).2 p.1 p.2 =
        if p ∈ L then 0 else b2 p.1 p.2) := by
  intro L
  induction L with
  | nil => intro _ b1 b2 p; simp
  | cons q L ih =>
      intro hnd b1 b2 p
      have hqL : q ∉ L := (List.nodup_cons.mp hnd).1
      have hndL : L.Nodup := (List.nodup_cons.mp hnd).2
      rw [List.foldl_cons,
        show copyGenLoopBody (b1, b2) q =
          (setCell b1 q.1 q.2 (b2 q.1 q.2), setCell b2 q.1 q.2 0) from rfl]
      obtain ⟨ih1, ih2⟩ := ih hndL (setCell b1 q.1 q.2 (b2 q.1 q.2)) (setCell b2 q.1 q.2 0) p
      rw [ih1, ih2]
      by_cases hpL : p ∈ L
      · have hpq : p ≠ q := fun hc => hqL (hc ▸ hpL)
        have hne : ¬(p.1 = q.1 ∧ p.2 = q.2) := fun hc => hpq (Prod.ext hc.1 hc.2)
        have hmem : p ∈ q :: L := List.mem_cons_of_mem q hpL
        rw [if_pos hpL, if_pos hpL, if_pos hmem, if_pos hmem]
        constructor
        · simp [setCell, hne]
        · rfl
      · by_cases hpq : p = q
        · subst hpq
          have hmem : p ∈ p :: L := List.mem_cons_self p L
          rw [if_neg hpL, if_neg hpL, if_pos hmem, if_pos hmem]
          constructor
          · simp [setCell]
          · simp [setCell]
        · have hmem : ¬ (p ∈ q :: L) := by simp [List.mem_cons, hpq, hpL]
          have hne : ¬(p.1 = q.1 ∧ p.2 = q.2) := fun hc => hpq (Prod.ext hc.1 hc.2)
          rw [if_neg hpL, if_neg hpL, if_neg hmem, if_neg hmem]
          constructor
          · simp [setCell, hne]
          · simp [setCell, hne]

lemma cellOrder_nodup : cellOrder.Nodup := by decide

/-- C10: after makeCurrentGenSameAsNextGen(board1, board2, ROW), every cell
of board1 holds the value board2 held at that position before the call, and
every cell of board2 holds 0 (the next-generation buffer is cleared while it
is adopted as the current generation). -/
theorem makeCurrentGenSameAsNextGen_copies_and_clears (board1 board2 : Grid) :
    (∀ i j, (makeCurrentGenSameAsNextGen board1 board2 ROW).1 i j = board2 i j) ∧
    (∀ i j, (makeCurrentGenSameAsNextGen board1 board2 ROW).2 i j = 0) := by
  constructor
  · intro i j
    have h := (copyGenLoop_apply cellOrder cellOrder_nodup board1 board2 (i, j)).1
    rw [if_pos (mem_cellOrder (i, j))] at h
    exact h
  · intro i j
    have h := (copyGenLoop_apply cellOrder cellOrder_nodup board1 board2 (i, j)).2
    rw [if_pos (mem_cellOrder (i, j))] at h
    exact h

/-- The driver state of the simulation loop in `main`: either still running
with a current board and generation counter, or terminated because the user
typed q/Q, or terminated because the board reached a still life. -/
inductive SimState where
  | running : Grid → ℕ → SimState
  | stable : SimState
  | userQuit : SimState

/-- One iteration of the `do { ... } while (true)` loop of `main`
(lines 54–109), given the user's quit decision for this iteration: compute
`nextGen` from `currentGen`; `if (c == q || c == Q) break;` comes FIRST
(line 95), then `generationsAreIdentical(currentGen, nextGen, ROW)` ends the
run as a still life (lines 98–102), and otherwise the next generation is
adopted and the generation counter (incremented at the print on line 91)
grows by one. -/
def simStep (quitRequested : Bool) : SimState → SimState
  | SimState.running currentGen gen =>
      let nextGen := computeNextGeneration currentGen
      if quitRequested then SimState.userQuit
      else if gridsEqual currentGen nextGen then SimState.stable
      else SimState.running nextGen (gen + 1)
  | s => s

/-- Counterexample to C3 as stated: on the all-dead grid the stability check
holds (the grid is a still life), yet when the user requests quit the loop
terminates as UserQuit, not Stable — `main` evaluates the quit prompt
(line 95) BEFORE the stability check (line 98), while the claim says the
stability check is evaluated first. -/
theorem simStep_quit_preempts_stability :
    gridsEqual deadGrid (computeNextGeneration deadGrid) = true ∧
    simStep true (SimState.running deadGrid 1) = SimState.userQuit ∧
    simStep true (SimState.running deadGrid 1) ≠ SimState.stable := by
  refine ⟨by decide, rfl, fun h => ?_⟩
  rw [show simStep true (SimState.running deadGrid 1) = SimState.userQuit from rfl] at h
  exact SimState.noConfusion h

/-- C3 amended: in each step of the driver, after computing
next = computeNextGeneration(current), the QUIT check is evaluated first:
if the user requests quit the run terminates in state UserQuit; only
otherwise, if gridsEqual(current, next) holds, does it terminate in state
Stable; and otherwise current becomes next, the generation number increases
by 1, and the state remains Running. -/
theorem simStep_checks_quit_first (currentGen : Grid) (gen : ℕ) (quit : Bool) :
    (quit = true → simStep quit (SimState.running currentGen gen) = SimState.userQuit) ∧
    (quit = false → gridsEqual currentGen (computeNextGeneration currentGen) = true →
      simStep quit (SimState.running currentGen gen) = SimState.stable) ∧
    (quit = false → gridsEqual currentGen (computeNextGeneration currentGen) = false →
      simStep quit (SimState.running currentGen gen) =
        SimState.running (computeNextGeneration currentGen) (gen + 1)) := by
  refine ⟨fun hq => ?_, fun hq hs => ?_, fun hq hs => ?_⟩
  · subst hq
    rfl
  · subst hq
    simp [simStep, hs]
  · subst hq
    simp [simStep, hs]

/-- Witness for the amended C3 at a concrete state: with quit requested on
the all-dead grid the step ends in UserQuit. -/
theorem simStep_checks_quit_first_witness :
    simStep true (SimState.running deadGrid 7) = SimState.userQuit :=
  (simStep_checks_quit_first deadGrid 7 true).1 rfl
